import Mathlib

/-!
Shallow embedding of `src/main.py` (labeltorss): an IMAP-to-RSS mirror.
The program scans a mailbox for messages newer than a persisted UID
watermark, normalizes them into entries, persists `{last_uid, entries}`
as a JSON state document, and regenerates an Atom/RSS feed from the full
entry list.  External collaborators (IMAP transport, MIME decoding,
dateutil parsing, HTTP title fetching, feedgen serialization) are
modelled by their observable outcomes: a message carries the decoded
subject/parts/payload strings, an `Option Int` standing for the result
of `dateutil.parser.parse` on its Date header (`none` = the parse
raises), and the session carries the login / SELECT outcomes and the
UID search result paired with each UID's FETCH outcome.
-/

namespace LabelToRss

/-- An archive entry, as stored in the `entries` list of the state
document (`main.py` lines 173-178 and 103-108).  Dates are stored as
ISO strings and re-parsed with `dateutil` everywhere they are used; the
embedding keeps the parsed value (an `Int` timestamp), relying on the
ISO round-trip. -/
structure Entry where
  date : Int
  title : String
  link : String
  description : String
deriving DecidableEq, Repr

/-- The persisted state: `(last_uid, entries)` as returned by
`load_state` and passed to `save_state`. -/
abbrev State := Int × List Entry

/-- One raw mail message, as seen after `email.message_from_bytes`:
the decoded subject, whether it is multipart, its parts as
(content-type, decoded payload) pairs, the single-part payload, and
the result of dateutil parsing of the Date header (`none` means the
parse raises). -/
structure MailMsg where
  subject : String
  isMultipart : Bool
  parts : List (String × String)
  payload : String
  date : Option Int
deriving DecidableEq, Repr

/-- One IMAP session's observable outcomes: whether `M.login`
succeeds, whether `M.select(EMAIL_FOLDER)` returns OK, and the UID
search result: each UID in order, paired with the outcome of
the per-UID RFC822 fetch (`none` means the fetch status was not OK). -/
structure Session where
  loginOk : Bool
  selectOk : Bool
  uids : List (Int × Option MailMsg)
deriving DecidableEq, Repr

/-- Outcome of a `fetch_emails` run (`main.py` lines 115-189).
`loginFailed` is the `sys.exit(1)` path; `selectFailed` is the early
`return` after a failed SELECT; `dateParseAborted uid` is the uncaught
exception from the Date-header parse on message `uid`; `completed st`
means `save_state` and `generate_feed` ran with final state `st`. -/
inductive ScanResult where
  | loginFailed
  | selectFailed
  | dateParseAborted (uid : Int)
  | completed (st : State)
deriving DecidableEq, Repr

/-- Process exit code for each scan outcome: `sys.exit(1)` on login
failure, normal return (exit 0) on select failure, Python's uncaught
exception exit (1) on a date-parse error, 0 on completion. -/
def exitCode : ScanResult → Int
  | .loginFailed => 1
  | .selectFailed => 0
  | .dateParseAborted _ => 1
  | .completed _ => 0

/-- The state document written by the run, if any: only the
`completed` path reaches `save_state` (`main.py` line 188). -/
def savedState : ScanResult → Option State
  | .completed st => some st
  | _ => none

/-- Body selection, `main.py` lines 158-165: body and current_ctype
start out as the empty string and None; for each part, when
current_ctype is None or the content type equals "text/html", body is
overwritten with the decoded payload.  Note the source never
assigns `current_ctype` after its initialization, which this embedding
reproduces faithfully (the accumulator's second component is carried
unchanged). -/
def pickBody (msg : MailMsg) : String :=
  if msg.isMultipart then
    (msg.parts.foldl
      (fun st part =>
        if st.2 = none ∨ part.1 = "text/html" then (part.2, st.2) else st)
      (("", (none : Option String)))).1
  else msg.payload

/-- Body selection as claim C4 states it: when multipart, an HTML part
once seen is kept over non-HTML parts (so the first `text/html` part
wins); otherwise the part last seen; non-multipart uses the single
payload.  This definition follows the claim's words, for comparison
with `pickBody` which is translated from the source. -/
def pickBodyClaimed (msg : MailMsg) : String :=
  if msg.isMultipart then
    match msg.parts.find? (fun part => part.1 = "text/html") with
    | some part => part.2
    | none => ((msg.parts.getLast?).map Prod.snd).getD ""
  else msg.payload

/-- Embedding of `main.py` line 167, the re.sub of pattern
[^0-9a-zA-Z]+ by _ over unidecode(subject), on the character list:
each maximal run of non-alphanumeric characters
collapses to a single `_`.  (`unidecode` is the external transliteration
collaborator; subjects are modelled post-transliteration.) -/
def collapseNonAlnum : List Char → Bool → List Char
  | [], _ => []
  | c :: cs, inRun =>
    if c.isAlphanum then c :: collapseNonAlnum cs false
    else if inRun then collapseNonAlnum cs true
    else '_' :: collapseNonAlnum cs true

/-- The entry/file identifier derived from a subject line. -/
def normalizeId (subject : String) : String :=
  String.mk (collapseNonAlnum subject.data false)

/-- Embedding of `main.py` line 36: drop every character whose Unicode general
category starts with "C"; modelled on the control ranges
U+0000-U+001F and U+007F-U+009F (category Cc). -/
def remove_control_characters (s : String) : String :=
  String.mk (s.data.filter
    (fun c => ¬ (c.val ≤ 0x1f ∨ (0x7f ≤ c.val ∧ c.val ≤ 0x9f))))

/-- Python's `str.strip()` on the character list: drop whitespace from
both ends. -/
def stripEnds (s : String) : String :=
  String.mk
    (((s.data.dropWhile Char.isWhitespace).reverse.dropWhile
        Char.isWhitespace).reverse)

/-- The entry built from one mail message (`main.py` lines 167-178),
given the parsed date `d`. -/
def mkMailEntry (baseUrl : String) (msg : MailMsg) (d : Int) : Entry :=
  { date := d
  , title := normalizeId msg.subject
  , link := baseUrl ++ "/" ++ normalizeId msg.subject ++ ".html"
  , description := remove_control_characters (stripEnds (pickBody msg)) }

/-- The per-UID loop of `fetch_emails` (`main.py` lines 146-178).
Arguments: the loaded watermark `last_uid`, the remaining UID/fetch
pairs, the running `current_max_uid`, and the accumulated
`new_entries`.  Faithfully to the source, `current_max_uid` is raised
to `uid` BEFORE the fetch outcome is examined (line 150 precedes line
152), a failed fetch just continues, and
a raising Date-header parse aborts the whole loop (no handler in the
source), reported as `.error uid`. -/
def scanLoop (baseUrl : String) (last_uid : Int) :
    List (Int × Option MailMsg) → Int → List Entry →
    Except Int (Int × List Entry)
  | [], cur, acc => .ok (cur, acc)
  | (uid, fetched) :: rest, cur, acc =>
    if uid ≤ last_uid then scanLoop baseUrl last_uid rest cur acc
    else
      let cur' := max cur uid
      match fetched with
      | none => scanLoop baseUrl last_uid rest cur' acc
      | some msg =>
        match msg.date with
        | none => .error uid
        | some d =>
          scanLoop baseUrl last_uid rest cur'
            (acc ++ [mkMailEntry baseUrl msg d])

/-- The scan run `fetch_emails` (`main.py` lines 115-189), given the session's
observable outcomes and the loaded state `(last_uid, existing)`.
Login failure exits; SELECT failure returns early (exit 0) with no
save; otherwise the UID loop runs and, unless a date parse aborts it,
`save_state(current_max_uid, existing + new_entries)` and
`generate_feed` run. -/
def fetch_emails (baseUrl : String) (sess : Session) (st : State) :
    ScanResult :=
  if sess.loginOk = false then .loginFailed
  else if sess.selectOk = false then .selectFailed
  else
    match scanLoop baseUrl st.1 sess.uids st.1 [] with
    | .error uid => .dateParseAborted uid
    | .ok (cur, newEntries) => .completed (cur, st.2 ++ newEntries)

/-- The persisted state after one scan run: a completed run commits
the saved state; any aborted run leaves the state document on disk
unchanged. -/
def runOnce (baseUrl : String) (sess : Session) (st : State) : State :=
  match fetch_emails baseUrl sess st with
  | .completed st' => st'
  | _ => st

/-! ## State Store -/

/-- What `load_state` (`main.py` lines 38-47) can find at
`STATE_FILE`: no file, a file `json.load` rejects
(`json.JSONDecodeError`), or a parsed JSON object whose `last_uid` /
`entries` keys may each be missing (`data.get` defaults). -/
inductive StateFileContent where
  | absent
  | unparseable
  | parsed (last_uid : Option Int) (entries : Option (List Entry))
deriving DecidableEq, Repr

/-- The loader `load_state` (`main.py` lines 38-47): `(0, [])` when the file is
missing or unparseable, otherwise the stored fields with defaults `0`
and `[]`. -/
def load_state : StateFileContent → State
  | .absent => (0, [])
  | .unparseable => (0, [])
  | .parsed lu es => (lu.getD 0, es.getD [])

/-- Contents of the state file as observable by a reader at some
instant: missing, truncated mid-write, or a fully written document. -/
inductive FileState (α : Type) where
  | absent
  | truncated
  | full (doc : α)
deriving DecidableEq, Repr

/-- The writer `save_state` (`main.py` lines 49-52) as the sequence of file
states a reader of `STATE_FILE` can observe: the prior contents, then
the file truncated by the write-mode open of STATE_FILE, then the document fully
written by `json.dump`.  There is no temporary file and no rename in
the source: the canonical path itself is truncated and rewritten. -/
def save_state_trace {α : Type} (old : FileState α) (doc : α) :
    List (FileState α) :=
  [old, .truncated, .full doc]

/-- The atomic-replacement contract claim C3 states: every state a
reader can observe during `save` is either the old document or the new
one (nothing partial). -/
def atomicTrace {α : Type} (old : FileState α) (doc : α)
    (trace : List (FileState α)) : Prop :=
  ∀ s ∈ trace, s = old ∨ s = FileState.full doc

/-! ## Feed Materializer -/

/-- One feed item as handed to feedgen (`main.py` lines 67-74): `id`
bound to the entry's link, `updated` to the parsed entry date,
`description` and `summary` both the entry description. -/
structure FeedItem where
  id : String
  title : String
  updated : Int
  link : String
  description : String
  summary : String
deriving DecidableEq, Repr

/-- The generated feed document: the fixed feed-level fields set in
`main.py` lines 60-64, the feed-level timestamp feedgen stamps at
serialization time, and the ordered item list. -/
structure Feed where
  id : String
  title : String
  description : String
  link : String
  updated : Int
  items : List FeedItem
deriving DecidableEq, Repr

/-- The comparator realizing `sorted(entries, key=lambda x:
parse(x.date), reverse=True)` (`main.py` line 58): `a` may precede
`b` iff `b`'s date is not newer.  Python's `sorted` is a stable merge
sort, and with `reverse=True` equal keys still keep their original
relative order. -/
def dateDesc (a b : Entry) : Bool := decide (b.date ≤ a.date)

/-- The sorted entry order of the generated feed (`main.py` line 58). -/
def generate_feed_order (entries : List Entry) : List Entry :=
  entries.mergeSort dateDesc

/-- One entry rendered as a feed item (`main.py` lines 67-74). -/
def entryToItem (e : Entry) : FeedItem :=
  { id := e.link
  , title := e.title
  , updated := e.date
  , link := e.link
  , description := e.description
  , summary := e.description }

/-- The materializer `generate_feed` (`main.py` lines 54-77): fixed feed-level fields,
a serialization-time feed timestamp `now`, and one item per entry in
date-descending order. -/
def generate_feed (baseUrl : String) (now : Int) (entries : List Entry) :
    Feed :=
  { id := baseUrl ++ "/rss.xml"
  , title := "My Newsletters"
  , description := "Personal Newsletter Feed"
  , link := baseUrl ++ "/rss.xml"
  , updated := now
  , items := (generate_feed_order entries).map entryToItem }

/-! ## Manual Link Injector -/

/-- The entry built by `add_manual_link` (`main.py` lines 103-108)
from the URL, the title returned by `fetch_web_title` (the fetched
page title, or the URL itself on any fetch failure), and the current
time `now`. -/
def manualEntry (now : Int) (url title : String) : Entry :=
  { date := now
  , title := title
  , link := url
  , description := "External Link: " ++ title }

/-- The injector `add_manual_link` (`main.py` lines 97-113) acting on the loaded
state: append the one new entry to the entry history and save with the
loaded `last_uid` unchanged (then `generate_feed` runs on the saved
entries). -/
def add_manual_link (now : Int) (url title : String) (st : State) :
    State :=
  (st.1, st.2 ++ [manualEntry now url title])

/-- The persisted states over a sequence of scan runs. -/
def runAll (baseUrl : String) (sessions : List Session) (st : State) :
    State :=
  sessions.foldl (fun s sess => runOnce baseUrl sess s) st

/-! ## Helper lemmas about the scan loop -/

/-- The running `current_max_uid` never decreases through the UID loop. -/
theorem scanLoop_mono (baseUrl : String) (last_uid : Int) :
    ∀ (uids : List (Int × Option MailMsg)) (cur : Int) (acc : List Entry)
      (w : Int) (es : List Entry),
    scanLoop baseUrl last_uid uids cur acc = .ok (w, es) → cur ≤ w := by
  intro uids
  induction uids with
  | nil =>
    intro cur acc w es h
    simp [scanLoop] at h
    omega
  | cons p rest ih =>
    intro cur acc w es h
    obtain ⟨uid, fetched⟩ := p
    by_cases hle : uid ≤ last_uid
    · simp only [scanLoop, if_pos hle] at h
      exact ih cur acc w es h
    · cases fetched with
      | none =>
        simp only [scanLoop, if_neg hle] at h
        have := ih (max cur uid) acc w es h
        omega
      | some msg =>
        cases hd : msg.date with
        | none =>
          simp only [scanLoop, if_neg hle, hd] at h
          exact absurd h (by simp)
        | some d =>
          simp only [scanLoop, if_neg hle, hd] at h
          have := ih (max cur uid) (acc ++ [mkMailEntry baseUrl msg d]) w es h
          omega

/-- If the UID loop completes (no date-parse abort), every
successfully fetched message above the watermark had a parseable
date. -/
theorem scanLoop_dates_of_ok (baseUrl : String) (last_uid : Int) :
    ∀ (uids : List (Int × Option MailMsg)) (cur : Int) (acc : List Entry)
      (r : Int × List Entry),
    scanLoop baseUrl last_uid uids cur acc = .ok r →
    ∀ (uid : Int) (msg : MailMsg),
      (uid, some msg) ∈ uids → last_uid < uid → msg.date.isSome := by
  intro uids
  induction uids with
  | nil => intro cur acc r h uid msg hm; exact absurd hm (by simp)
  | cons p rest ih =>
    intro cur acc r h uid msg hm hgt
    obtain ⟨uid0, fetched⟩ := p
    rcases List.mem_cons.mp hm with hhd | htl
    · injection hhd with h1 h2
      subst h1
      subst h2
      have hle : ¬ uid ≤ last_uid := by omega
      cases hd : msg.date with
      | none =>
        simp only [scanLoop, if_neg hle, hd] at h
        exact absurd h (by simp)
      | some d => simp [hd]
    · by_cases hle : uid0 ≤ last_uid
      · simp only [scanLoop, if_pos hle] at h
        exact ih cur acc r h uid msg htl hgt
      · cases fetched with
        | none =>
          simp only [scanLoop, if_neg hle] at h
          exact ih (max cur uid0) acc r h uid msg htl hgt
        | some msg0 =>
          cases hd : msg0.date with
          | none =>
            simp only [scanLoop, if_neg hle, hd] at h
            exact absurd h (by simp)
          | some d =>
            simp only [scanLoop, if_neg hle, hd] at h
            exact ih (max cur uid0) (acc ++ [mkMailEntry baseUrl msg0 d]) r h
              uid msg htl hgt

/-- If every successfully fetched message above the watermark has a
parseable date, the UID loop completes. -/
theorem scanLoop_ok_of_dates (baseUrl : String) (last_uid : Int) :
    ∀ (uids : List (Int × Option MailMsg)) (cur : Int) (acc : List Entry),
    (∀ (uid : Int) (msg : MailMsg),
        (uid, some msg) ∈ uids → last_uid < uid → msg.date.isSome) →
    ∃ r, scanLoop baseUrl last_uid uids cur acc = .ok r := by
  intro uids
  induction uids with
  | nil => intro cur acc _; exact ⟨(cur, acc), rfl⟩
  | cons p rest ih =>
    intro cur acc hdates
    obtain ⟨uid, fetched⟩ := p
    by_cases hle : uid ≤ last_uid
    · obtain ⟨r, hr⟩ := ih cur acc
        (fun u m hm hgt => hdates u m (List.mem_cons_of_mem _ hm) hgt)
      exact ⟨r, by simp only [scanLoop, if_pos hle]; exact hr⟩
    · cases fetched with
      | none =>
        obtain ⟨r, hr⟩ := ih (max cur uid) acc
          (fun u m hm hgt => hdates u m (List.mem_cons_of_mem _ hm) hgt)
        exact ⟨r, by simp only [scanLoop, if_neg hle]; exact hr⟩
      | some msg =>
        have hsome : msg.date.isSome :=
          hdates uid msg (List.mem_cons_self _ _) (by omega)
        obtain ⟨d, hd⟩ := Option.isSome_iff_exists.mp hsome
        obtain ⟨r, hr⟩ := ih (max cur uid) (acc ++ [mkMailEntry baseUrl msg d])
          (fun u m hm hgt => hdates u m (List.mem_cons_of_mem _ hm) hgt)
        exact ⟨r, by simp only [scanLoop, if_neg hle, hd]; exact hr⟩

/-- When every searched UID is at or below the watermark, the loop
skips them all and returns the initial accumulator unchanged. -/
theorem scanLoop_all_old (baseUrl : String) (last_uid : Int) :
    ∀ (uids : List (Int × Option MailMsg)) (cur : Int) (acc : List Entry),
    (∀ p ∈ uids, p.1 ≤ last_uid) →
    scanLoop baseUrl last_uid uids cur acc = .ok (cur, acc) := by
  intro uids
  induction uids with
  | nil => intro cur acc _; rfl
  | cons p rest ih =>
    intro cur acc hold
    obtain ⟨uid, fetched⟩ := p
    have hle : uid ≤ last_uid := hold (uid, fetched) (List.mem_cons_self _ _)
    rw [scanLoop, if_pos hle]
    exact ih cur acc (fun q hq => hold q (List.mem_cons_of_mem _ hq))

/-! ## Claim theorems -/

/-- C1 counterexample: in a run starting from watermark 0, the sole
searched message has UID 5 and its fetch fails; the run
completes and saves watermark 5.  The saved watermark therefore does
include (is ≥) the identifier of a message whose per-message fetch
failed during that run, so that message is never re-scanned:
`current_max_uid` is raised to the UID (line 150) before the fetch
outcome is checked (lines 152-153). -/
theorem c1_failed_uid_included :
    fetch_emails "http://h" ⟨true, true, [(5, none)]⟩ (0, []) =
      ScanResult.completed (5, []) ∧
    savedState (fetch_emails "http://h" ⟨true, true, [(5, none)]⟩ (0, [])) =
      some (5, []) ∧ (5 : Int) ≤ 5 := by
  refine ⟨by decide, by decide, by omega⟩

/-- C1 (amended): the persisted watermark `last_uid` is monotonically
non-decreasing: after any single scan run, and along any sequence of
scan runs, the persisted watermark is ≥ the one before (an aborted run
leaves the state document unchanged).  However, the saved watermark
MAY include the identifier of a message whose per-message fetch failed
during the run, because `current_max_uid` is updated before the fetch
result is examined; such a message is not re-scanned on the next
run. -/
theorem c1_watermark_monotone (baseUrl : String) (sess : Session)
    (sessions : List Session) (st : State) :
    st.1 ≤ (runOnce baseUrl sess st).1 ∧
    st.1 ≤ (runAll baseUrl sessions st).1 := by
  have single : ∀ (s : Session) (t : State), t.1 ≤ (runOnce baseUrl s t).1 := by
    intro s t
    by_cases hl : s.loginOk = false
    · simp [runOnce, fetch_emails, hl]
    · by_cases hs : s.selectOk = false
      · simp [runOnce, fetch_emails, hl, hs]
      · cases hr : scanLoop baseUrl t.1 s.uids t.1 [] with
        | error uid => simp [runOnce, fetch_emails, hl, hs, hr]
        | ok r =>
          obtain ⟨w, es⟩ := r
          simp only [runOnce, fetch_emails, hl, hs, if_neg, ite_false, hr]
          simp only [Bool.not_eq_false] at hl hs
          simp [hl, hs]
          exact scanLoop_mono baseUrl t.1 s.uids t.1 [] w es hr
  refine ⟨single sess st, ?_⟩
  induction sessions generalizing st with
  | nil => simp [runAll]
  | cons s rest ih =>
    have h1 := single s st
    have h2 := ih (runOnce baseUrl s st)
    simp only [runAll, List.foldl_cons] at h2 ⊢
    omega

/-- C2 counterexample: with watermark 0, message UID 1 is fetched
successfully but its Date header fails to parse, and message UID 2 is
perfectly fine.  The claim says only the single bad entry is skipped
and the run continues; in the source the Date-header parse (line 172)
has no exception handler, so the run aborts with an uncaught exception
before processing UID 2, and nothing is saved. -/
theorem c2_run_aborts_on_bad_date :
    fetch_emails "http://h"
        ⟨true, true,
          [(1, some (MailMsg.mk "Bad" false [] "x" none)),
           (2, some (MailMsg.mk "Good" false [] "y" (some 9)))]⟩
        (0, []) = ScanResult.dateParseAborted 1 ∧
    savedState (ScanResult.dateParseAborted 1) = none ∧
    exitCode (ScanResult.dateParseAborted 1) = 1 := by
  refine ⟨by decide, rfl, rfl⟩

/-- C2 (amended): a fetched message whose Date header fails to parse
aborts the entire scan run via an uncaught exception — no state is
saved and the remaining messages are not processed; equivalently, a
run only completes when every successfully fetched message above the
watermark had a parseable date.  The date is never silently defaulted
to the current time (the aborted run produces no entry at all). -/
theorem c2_completed_implies_dates_parsed (baseUrl : String)
    (sess : Session) (st : State) (w : Int) (es : List Entry)
    (h : fetch_emails baseUrl sess st = ScanResult.completed (w, es)) :
    ∀ (uid : Int) (msg : MailMsg),
      (uid, some msg) ∈ sess.uids → st.1 < uid → msg.date.isSome := by
  by_cases hl : sess.loginOk = false
  · simp [fetch_emails, hl] at h
  · by_cases hsel : sess.selectOk = false
    · simp [fetch_emails, hl, hsel] at h
    · cases hr : scanLoop baseUrl st.1 sess.uids st.1 [] with
      | error uid => simp [fetch_emails, hl, hsel, hr] at h
      | ok r =>
        exact scanLoop_dates_of_ok baseUrl st.1 sess.uids st.1 [] r hr

/-- Witness for C2: a concrete completed run, from which the theorem
yields that the processed message's date was parseable. -/
theorem c2_witness :
    (MailMsg.mk "Hi" false [] "b" (some 7)).date.isSome := by
  have h : fetch_emails "u" ⟨true, true,
      [(1, some (MailMsg.mk "Hi" false [] "b" (some 7)))]⟩ (0, []) =
      ScanResult.completed
        (1, [mkMailEntry "u" (MailMsg.mk "Hi" false [] "b" (some 7)) 7]) := by
    decide
  exact c2_completed_implies_dates_parsed "u" _ (0, []) _ _ h 1 _
    (by simp) (by omega)

/-- C3 counterexample: `save_state` does not write to a temporary
location and atomically replace `STATE_FILE`; it truncates the
canonical path in place (write-mode open of STATE_FILE, line 51) and then
writes.  A reader during the write observes the truncated file, which
is neither the old document `(1, [])` nor the new document
`(2, [])`. -/
theorem c3_partial_state_observable :
    FileState.truncated ∈
      save_state_trace (FileState.full ((1 : Int), ([] : List Entry)))
        (2, []) ∧
    ¬ atomicTrace (FileState.full ((1 : Int), ([] : List Entry))) (2, [])
        (save_state_trace (FileState.full (1, [])) (2, [])) := by
  constructor
  · simp [save_state_trace]
  · intro h
    have := h .truncated (by simp [save_state_trace])
    rcases this with h1 | h2 <;> simp_all

/-- C3 (amended): `save_state` overwrites the canonical path in place
(truncate, then write), so a reader who loads after a COMPLETED save
sees exactly the saved document, and a run that aborts before reaching
`save_state` commits nothing — but a reader arriving mid-write can
observe a partially written (truncated) document, since there is no
temporary file and no atomic rename. -/
theorem c3_save_inplace_overwrite (old : FileState State) (doc : State)
    (uid : Int) :
    (save_state_trace old doc).getLast? = some (FileState.full doc) ∧
    FileState.truncated ∈ save_state_trace old doc ∧
    savedState ScanResult.loginFailed = none ∧
    savedState ScanResult.selectFailed = none ∧
    savedState (ScanResult.dateParseAborted uid) = none := by
  refine ⟨by simp [save_state_trace], by simp [save_state_trace], rfl, rfl, rfl⟩

/-- C4 counterexample: a multipart message whose first part is
`text/html` with payload `"H"` and whose second part is `text/plain`
with payload `"P"`.  The claim says the HTML part, once seen, is kept
over non-HTML parts, so the body would be `"H"`; the source keeps
overwriting `body` because `current_ctype` is never assigned (lines
158-163), so the body is the LAST part `"P"`. -/
theorem c4_html_not_preferred :
    pickBody ⟨"s", true, [("text/html", "H"), ("text/plain", "P")], "", none⟩
      = "P" ∧
    pickBodyClaimed
        ⟨"s", true, [("text/html", "H"), ("text/plain", "P")], "", none⟩
      = "H" ∧
    ("P" : String) ≠ "H" := by
  refine ⟨rfl, rfl, by decide⟩

/-- The body-selection fold of `main.py` lines 160-163 keeps the last
part's payload: the guard (current_ctype is None, or the content type
equals "text/html") is always true because `current_ctype` is never
assigned. -/
theorem pickBody_foldl_last (ps : List (String × String)) :
    ∀ (b : String),
    (ps.foldl
        (fun st part =>
          if st.2 = none ∨ part.1 = "text/html" then (part.2, st.2) else st)
        ((b, (none : Option String)))).1 =
      ((ps.getLast?).map Prod.snd).getD b := by
  induction ps with
  | nil => intro b; rfl
  | cons p rest ih =>
    intro b
    rw [List.foldl_cons, if_pos (Or.inl rfl)]
    cases rest with
    | nil => rfl
    | cons q t =>
      rw [List.getLast?_cons_cons]
      have hs : (q :: t).getLast?.isSome = true :=
        List.getLast?_isSome.mpr (by simp)
      obtain ⟨x, hx⟩ := Option.isSome_iff_exists.mp hs
      exact (ih p.2).trans (by simp [hx])

/-- C4 (amended): for a multipart message the chosen body is the
payload of the part LAST seen while walking the parts (empty if there
are none) — the HTML-preference guard is inert because `current_ctype`
is never updated — and for a non-multipart message the single payload
is used. -/
theorem c4_body_is_last_part (subject : String)
    (parts : List (String × String)) (payload : String) (d : Option Int) :
    pickBody ⟨subject, true, parts, payload, d⟩ =
      ((parts.getLast?).map Prod.snd).getD "" ∧
    pickBody ⟨subject, false, parts, payload, d⟩ = payload := by
  constructor
  · simp only [pickBody, if_pos]
    exact pickBody_foldl_last parts ""
  · rfl

/-- C5 counterexample: with login succeeding and `M.select` failing,
`fetch_emails` prints and RETURNS (lines 126-129), so the process
exits with code 0, not non-zero as the claim states (no state is
mutated, though). -/
theorem c5_select_failure_exits_zero :
    fetch_emails "u" ⟨true, false, []⟩ (0, []) = ScanResult.selectFailed ∧
    exitCode (fetch_emails "u" ⟨true, false, []⟩ (0, [])) = 0 ∧
    savedState (fetch_emails "u" ⟨true, false, []⟩ (0, [])) = none := by
  refine ⟨rfl, rfl, rfl⟩

/-- C5 (amended): in scan mode the process exits non-zero (1, via
`sys.exit(1)`) on authentication failure, with no mutation of the
persisted state; on failure to open the mailbox folder the run also
aborts with no state mutation but exits ZERO (plain `return`); a
completed run exits zero even when zero new items were found. -/
theorem c5_exit_codes (baseUrl : String) (sel : Bool)
    (uids : List (Int × Option MailMsg)) (st st' : State) :
    fetch_emails baseUrl ⟨false, sel, uids⟩ st = ScanResult.loginFailed ∧
    exitCode ScanResult.loginFailed = 1 ∧
    savedState ScanResult.loginFailed = none ∧
    fetch_emails baseUrl ⟨true, false, uids⟩ st = ScanResult.selectFailed ∧
    exitCode ScanResult.selectFailed = 0 ∧
    savedState ScanResult.selectFailed = none ∧
    exitCode (ScanResult.completed st') = 0 := by
  refine ⟨rfl, rfl, rfl, rfl, rfl, rfl, rfl⟩

/-- The comparator for the feed sort is transitive. -/
theorem dateDesc_trans (a b c : Entry) :
    dateDesc a b → dateDesc b c → dateDesc a c := by
  simp only [dateDesc, decide_eq_true_eq]
  omega

/-- The comparator for the feed sort is total. -/
theorem dateDesc_total (a b : Entry) : dateDesc a b || dateDesc b a := by
  simp only [dateDesc, Bool.or_eq_true, decide_eq_true_eq]
  omega

/-- C6: the materialized feed lists the entries sorted by date
descending (newest first): the sorted list is a permutation of the
input, consecutive items have non-increasing dates, ties keep the
entries' relative input order (Python's `sorted` is stable, also with
`reverse=True`), and on the spec's example dates 3, 1, 2 the feed
order is 3, 2, 1. -/
theorem c6_feed_sorted_desc (entries : List Entry) :
    (generate_feed_order entries).Perm entries ∧
    (generate_feed_order entries).Pairwise
      (fun a b => b.date ≤ a.date) ∧
    (∀ a b : Entry, a.date = b.date → [a, b].Sublist entries →
        [a, b].Sublist (generate_feed_order entries)) ∧
    (generate_feed_order
        [⟨3, "a", "la", "da"⟩, ⟨1, "b", "lb", "db"⟩,
         ⟨2, "c", "lc", "dc"⟩]).map Entry.date = [3, 2, 1] := by
  refine ⟨List.mergeSort_perm entries dateDesc, ?_, ?_, ?_⟩
  · have h := List.sorted_mergeSort dateDesc_trans dateDesc_total entries
    exact h.imp (fun hab => by simpa [dateDesc] using hab)
  · intro a b hd hs
    exact List.pair_sublist_mergeSort dateDesc_trans dateDesc_total
      (by simp [dateDesc, hd]) hs
  · simp [generate_feed_order, List.mergeSort, List.merge, dateDesc]

/-- Witness for C6: stability applied at two concretely equal-dated
entries — their relative order survives materialization. -/
theorem c6_witness :
    [Entry.mk 5 "a" "la" "da", Entry.mk 5 "b" "lb" "db"].Sublist
      (generate_feed_order
        [Entry.mk 5 "a" "la" "da", Entry.mk 5 "b" "lb" "db"]) := by
  have h := (c6_feed_sorted_desc
    [Entry.mk 5 "a" "la" "da", Entry.mk 5 "b" "lb" "db"]).2.2.1
  exact h (Entry.mk 5 "a" "la" "da") (Entry.mk 5 "b" "lb" "db") rfl
    (List.Sublist.refl _)

/-- C7: feed materialization is a deterministic pure function of the
entry list: two generations from the same entries (at different
serialization times) have identical item lists — same items, same
order — differing at most in the feed-level timestamp, which is
exactly the field excluded from the comparison. -/
theorem c7_feed_deterministic (baseUrl : String) (t1 t2 : Int)
    (entries : List Entry) :
    (generate_feed baseUrl t1 entries).items =
      (generate_feed baseUrl t2 entries).items ∧
    (generate_feed baseUrl t1 entries).items =
      (generate_feed_order entries).map entryToItem := by
  exact ⟨rfl, rfl⟩

/-- C8: `load_state` returns `(0, [])` both when no state document
exists and when the document exists but fails to parse
(`json.JSONDecodeError` is swallowed, lines 45-47). -/
theorem c8_load_state_defaults :
    load_state StateFileContent.absent = (0, []) ∧
    load_state StateFileContent.unparseable = (0, []) := by
  exact ⟨rfl, rfl⟩

/-- C9: injecting a manual link appends exactly one entry at the end
of the existing history, the new entry's `link` is the given URL
verbatim, and the state is persisted with `last_uid` unchanged. -/
theorem c9_manual_link_appends (now : Int) (url title : String)
    (w : Int) (es : List Entry) :
    add_manual_link now url title (w, es) =
      (w, es ++ [manualEntry now url title]) ∧
    (manualEntry now url title).link = url ∧
    (add_manual_link now url title (w, es)).1 = w ∧
    (add_manual_link now url title (w, es)).2.length = es.length + 1 := by
  refine ⟨rfl, rfl, rfl, by simp [add_manual_link]⟩

/-- C10 counterexample: login and folder selection succeed, yet the
run does NOT save: the single new message's date fails to parse and
the uncaught exception aborts the run before `save_state`.  The save
on lines 187-188 is unconditional only for runs that survive the UID
loop. -/
theorem c10_save_not_unconditional :
    fetch_emails "u"
        ⟨true, true, [(3, some (MailMsg.mk "S" false [] "z" none))]⟩
        (0, []) = ScanResult.dateParseAborted 3 ∧
    savedState (ScanResult.dateParseAborted 3) = none := by
  refine ⟨by decide, rfl⟩

/-- C10 (amended): whenever login and folder selection succeed and no
fetched message's date fails to parse, the run saves the state
document and regenerates the feed; in particular when zero new
messages are found (every searched UID is at or below the watermark)
it completes unconditionally and rewrites the state file with exactly
the loaded watermark and entry list. -/
theorem c10_zero_new_still_saves (baseUrl : String)
    (uids : List (Int × Option MailMsg)) (w : Int) (es : List Entry) :
    ((∀ (uid : Int) (msg : MailMsg),
        (uid, some msg) ∈ uids → w < uid → msg.date.isSome) →
      ∃ st', fetch_emails baseUrl ⟨true, true, uids⟩ (w, es) =
        ScanResult.completed st') ∧
    ((∀ p ∈ uids, p.1 ≤ w) →
      fetch_emails baseUrl ⟨true, true, uids⟩ (w, es) =
        ScanResult.completed (w, es)) := by
  constructor
  · intro hdates
    obtain ⟨r, hr⟩ := scanLoop_ok_of_dates baseUrl w uids w [] hdates
    obtain ⟨cur, newEntries⟩ := r
    exact ⟨(cur, es ++ newEntries), by simp [fetch_emails, hr]⟩
  · intro hold
    have hr := scanLoop_all_old baseUrl w uids w [] hold
    simp [fetch_emails, hr]

/-- Witness for C10: with an empty UID search result the run
completes and saves back exactly the loaded state. -/
theorem c10_witness :
    fetch_emails "u" ⟨true, true, []⟩ (0, []) =
      ScanResult.completed (0, []) := by
  exact (c10_zero_new_still_saves "u" [] 0 []).2 (by simp)

end LabelToRss
